import Mathlib

/-!
Verification of the gameradar ingestion pipeline against its specification.

The Python sources are shallowly embedded: pure functions become Lean
functions, Python numbers (int/float) are modelled by `ℚ`, dictionaries by
association lists, and code that can raise returns `Except`/`Option`.
Python truthiness of strings is the emptiness test; `CountryCode` is a
`str` enum whose values ("IN", "KR", ..., "XX") are all nonempty strings,
so every member of the enum — including `UNKNOWN` — is truthy.
-/

namespace GameRadar

/-! ## Python string primitives -/

/-- ASCII lower-casing of one character; characters outside A-Z are kept,
matching `str.lower` on the scripts used by the tables (the native-script
names in the tables are caseless or already lower case). -/
def asciiLower (c : Char) : Char :=
  if 'A' ≤ c ∧ c ≤ 'Z' then Char.ofNat (c.toNat + 32) else c

/-- Model of Python `str.lower()`. -/
def lowerStr (s : String) : String :=
  ⟨s.data.map asciiLower⟩

/-- Whitespace stripped by Python `str.strip()` (ASCII whitespace). -/
def isPySpace (c : Char) : Bool :=
  c == ' ' || c == '\t' || c == '\n' || c == '\r' || c == Char.ofNat 11 || c == Char.ofNat 12

/-- Model of Python `str.strip()`. -/
def stripStr (s : String) : String :=
  ⟨((s.data.dropWhile isPySpace).reverse.dropWhile isPySpace).reverse⟩

/-- Predicate `listPrefixOf pat l` is true when `pat` is an initial segment of `l`. -/
def listPrefixOf : List Char → List Char → Bool
  | [], _ => true
  | _ :: _, [] => false
  | a :: as, b :: bs => a == b && listPrefixOf as bs

/-- Predicate `listInfixOf pat l` is true when `pat` occurs contiguously inside `l`. -/
def listInfixOf (pat : List Char) : List Char → Bool
  | [] => listPrefixOf pat []
  | c :: rest => listPrefixOf pat (c :: rest) || listInfixOf pat rest

/-- Model of the Python substring test `pat in hay`. -/
def strContains (hay pat : String) : Bool :=
  listInfixOf pat.data hay.data

/-- Digit string to number, most significant first. -/
def digitsVal (l : List Char) : ℕ :=
  l.foldl (fun a c => a * 10 + (c.toNat - 48)) 0

/-- Model of Python `float(s)` on a string: an optional sign followed by a
plain decimal literal (`"12"`, `"54.9"`, `"3."`, `".5"`).  Anything else is
`none`, meaning `float` raises `ValueError`.  (Scientific notation and
`inf`/`nan`, which the repository never feeds to `float`, are omitted.) -/
def pyParseFloat (s : String) : Option ℚ :=
  let core : List Char → Option ℚ := fun l =>
    let ip := l.takeWhile Char.isDigit
    let rest := l.dropWhile Char.isDigit
    match rest with
    | [] => if ip.isEmpty then none else some (digitsVal ip)
    | '.' :: fr =>
      if fr.all Char.isDigit && (!ip.isEmpty || !fr.isEmpty) then
        some ((digitsVal ip : ℚ) + (digitsVal fr : ℚ) / ((10 : ℚ) ^ fr.length))
      else none
    | _ => none
  match s.data with
  | '-' :: r => (core r).map (fun x => -x)
  | '+' :: r => core r
  | r => core r

/-- A Python value as found in the loosely-typed `stats` dictionaries:
a number (int/float, modelled by `ℚ`), a string, or `None`. -/
inductive PyVal where
  | pnum (x : ℚ)
  | pstr (s : String)
  | pnone
deriving DecidableEq, Repr

/-- Model of Python `float(v)`: numbers convert to themselves, strings are
parsed (or raise), `float(None)` raises `TypeError`.  `none` models the
raised exception. -/
def pyFloat (v : PyVal) : Option ℚ :=
  match v with
  | .pnum x => some x
  | .pstr s => pyParseFloat (stripStr s)
  | .pnone => none

/-- Dictionary lookup `d.get(k)`; the association lists we feed in have
distinct keys, so first-match lookup models the Python dict. -/
def dictGet (d : List (String × PyVal)) (k : String) : Option PyVal :=
  (d.find? (fun kv => kv.1 == k)).map (·.2)

/-! ## models.py: enums -/

/-- Enum `CountryCode` from models.py.  In the source this is a `str` enum with
values "IN", "KR", "VN", "CN", "PH", "TH", "JP", "TW", "ID", "XX"; every
value is a nonempty string, so every member is truthy in Python. -/
inductive CountryCode where
  | INDIA | KOREA | VIETNAM | CHINA | PHILIPPINES
  | THAILAND | JAPAN | TAIWAN | INDONESIA | UNKNOWN
deriving DecidableEq, Repr

/-- The enum's string value. -/
def CountryCode.value : CountryCode → String
  | .INDIA => "IN"
  | .KOREA => "KR"
  | .VIETNAM => "VN"
  | .CHINA => "CN"
  | .PHILIPPINES => "PH"
  | .THAILAND => "TH"
  | .JAPAN => "JP"
  | .TAIWAN => "TW"
  | .INDONESIA => "ID"
  | .UNKNOWN => "XX"

/-- Enum `GameTitle` from models.py. -/
inductive GameTitle where
  | LEAGUE_OF_LEGENDS | VALORANT | DOTA2 | CSGO | MOBILE_LEGENDS | PUBG_MOBILE
deriving DecidableEq, Repr

/-! ## country_detector.py -/

/-- Table `SERVER_TO_COUNTRY`, in source (dict insertion) order.  Note the entry
`"asia" ↦ UNKNOWN`. -/
def SERVER_TO_COUNTRY : List (String × CountryCode) :=
  [("kr", .KOREA), ("vn", .VIETNAM), ("ph", .PHILIPPINES), ("sg", .VIETNAM),
   ("th", .THAILAND), ("tw", .TAIWAN), ("jp", .JAPAN), ("in", .INDIA),
   ("korea", .KOREA), ("mumbai", .INDIA), ("singapore", .VIETNAM),
   ("hongkong", .CHINA), ("tokyo", .JAPAN),
   ("sea", .VIETNAM), ("asia", .UNKNOWN)]

/-- Table `FLAG_TO_COUNTRY`: emoji flag (two regional-indicator characters) to
country, in source order. -/
def FLAG_TO_COUNTRY : List (String × CountryCode) :=
  [("🇮🇳", .INDIA), ("🇰🇷", .KOREA), ("🇻🇳", .VIETNAM), ("🇨🇳", .CHINA),
   ("🇵🇭", .PHILIPPINES), ("🇹🇭", .THAILAND), ("🇯🇵", .JAPAN),
   ("🇹🇼", .TAIWAN), ("🇮🇩", .INDONESIA)]

/-- Table `COUNTRY_NAME_TO_CODE`, in source order (English names first, then
native-script names). -/
def COUNTRY_NAME_TO_CODE : List (String × CountryCode) :=
  [("india", .INDIA), ("korea", .KOREA), ("south korea", .KOREA),
   ("vietnam", .VIETNAM), ("china", .CHINA), ("philippines", .PHILIPPINES),
   ("thailand", .THAILAND), ("japan", .JAPAN), ("taiwan", .TAIWAN),
   ("indonesia", .INDONESIA),
   ("भारत", .INDIA), ("한국", .KOREA), ("việt nam", .VIETNAM), ("中国", .CHINA)]

/-- Function `detect_country_from_flag`: first flag of the table contained in the
text wins. -/
def detect_country_from_flag (text : String) : Option CountryCode :=
  (FLAG_TO_COUNTRY.find? (fun fc => strContains text fc.1)).map (·.2)

/-- Function `detect_country_from_server`: exact lookup of `server.lower().strip()`. -/
def detect_country_from_server (server : String) : Option CountryCode :=
  let key := stripStr (lowerStr server)
  (SERVER_TO_COUNTRY.find? (fun kv => kv.1 == key)).map (·.2)

/-- Function `detect_country_from_url`: substring heuristics over the lower-cased
URL, in source order. -/
def detect_country_from_url (url : String) : Option CountryCode :=
  let u := lowerStr url
  if strContains u "/kr/" || strContains u "kr.op.gg" then some .KOREA
  else if strContains u "/vn/" || strContains u "vn.op.gg" then some .VIETNAM
  else if strContains u "/in/" || strContains u ".in/" then some .INDIA
  else if strContains u "/cn/" || strContains u ".cn/" then some .CHINA
  else if strContains u "/jp/" || strContains u ".jp/" then some .JAPAN
  else none

/-- Function `detect_country_from_name`: first country name of the table contained
in `text.lower().strip()` wins. -/
def detect_country_from_name (text : String) : Option CountryCode :=
  let t := stripStr (lowerStr text)
  (COUNTRY_NAME_TO_CODE.find? (fun kv => strContains t kv.1)).map (·.2)

/-- Function `detect_country`: priority flag > name (over `profile_text`), then
server, then URL, then flag > name over `additional_text`, else UNKNOWN.
`if profile_text:` is the Python emptiness test on an optional string;
`if country:` is member truthiness, which (all enum values being nonempty
strings) is exactly `isSome` — a successful `UNKNOWN` lookup is returned,
not skipped. -/
def detect_country (profile_text server url additional_text : Option String) :
    CountryCode :=
  let step1 : Option CountryCode :=
    match profile_text with
    | some p =>
      if p = "" then none
      else
        match detect_country_from_flag p with
        | some c => some c
        | none => detect_country_from_name p
    | none => none
  match step1 with
  | some c => c
  | none =>
    let step2 : Option CountryCode :=
      match server with
      | some s => if s = "" then none else detect_country_from_server s
      | none => none
    match step2 with
    | some c => c
    | none =>
      let step3 : Option CountryCode :=
        match url with
        | some u => if u = "" then none else detect_country_from_url u
        | none => none
      match step3 with
      | some c => c
      | none =>
        let step4 : Option CountryCode :=
          match additional_text with
          | some a =>
            if a = "" then none
            else
              match detect_country_from_flag a with
              | some c => some c
              | none => detect_country_from_name a
          | none => none
        match step4 with
        | some c => c
        | none => CountryCode.UNKNOWN

/-! ## UTF-8 (used by `PlayerProfile.validate_unicode_support`)

The validator runs `v.encode('utf-8').decode('utf-8')`.  We model the
codec at the level of Unicode code points (`ℕ`): `utf8_encode_char` is the
UTF-8 byte sequence of one scalar value, `utf8_decode` parses a byte list
back into code points (failure = `UnicodeError`).  Lean strings contain
only Unicode scalar values, exactly the strings for which the Python
round trip succeeds (lone surrogates, which make `encode` raise, are not
representable). -/

/-- UTF-8 encoding of one code point as a byte list. -/
def utf8_encode_char (n : ℕ) : List ℕ :=
  if n < 128 then [n]
  else if n < 2048 then [192 + n / 64, 128 + n % 64]
  else if n < 65536 then [224 + n / 4096, 128 + n / 64 % 64, 128 + n % 64]
  else [240 + n / 262144, 128 + n / 4096 % 64, 128 + n / 64 % 64, 128 + n % 64]

/-- UTF-8 encoding of a string as a byte list. -/
def utf8_encode_str (s : String) : List ℕ :=
  (s.data.map (fun c => utf8_encode_char c.toNat)).flatten

/-- UTF-8 decoder (fuel-indexed so that it computes by reduction; one unit
of fuel is spent per decoded code point, so fuel `≥` the byte length always
suffices).  Continuation bytes are checked; `none` models a raised
`UnicodeDecodeError`. -/
def utf8_decode_aux : ℕ → List ℕ → Option (List ℕ)
  | _, [] => some []
  | 0, _ :: _ => none
  | fuel + 1, b :: rest =>
    if b < 128 then (utf8_decode_aux fuel rest).map (b :: ·)
    else if b < 192 then none
    else if b < 224 then
      match rest with
      | b1 :: r =>
        if 128 ≤ b1 ∧ b1 < 192 then
          (utf8_decode_aux fuel r).map (((b - 192) * 64 + (b1 - 128)) :: ·)
        else none
      | [] => none
    else if b < 240 then
      match rest with
      | b1 :: b2 :: r =>
        if (128 ≤ b1 ∧ b1 < 192) ∧ (128 ≤ b2 ∧ b2 < 192) then
          (utf8_decode_aux fuel r).map
            (((b - 224) * 4096 + (b1 - 128) * 64 + (b2 - 128)) :: ·)
        else none
      | _ => none
    else if b < 248 then
      match rest with
      | b1 :: b2 :: b3 :: r =>
        if (128 ≤ b1 ∧ b1 < 192) ∧ (128 ≤ b2 ∧ b2 < 192) ∧ (128 ≤ b3 ∧ b3 < 192) then
          (utf8_decode_aux fuel r).map
            (((b - 240) * 262144 + (b1 - 128) * 4096 + (b2 - 128) * 64 + (b3 - 128)) :: ·)
        else none
      | _ => none
    else none

/-- UTF-8 decoding of a byte list into code points. -/
def utf8_decode (l : List ℕ) : Option (List ℕ) :=
  utf8_decode_aux l.length l

/-! ## models.py: Champion, PlayerStats, PlayerProfile -/

/-- Model `Champion` from models.py (name, games_played ≥ 0, win_rate). -/
structure Champion where
  name : String
  games_played : ℕ
  win_rate : ℚ
deriving DecidableEq, Repr

/-- Model `PlayerStats` from models.py.  The optional averages are `Option ℚ`. -/
structure PlayerStats where
  win_rate : ℚ
  kda : ℚ
  kills_avg : Option ℚ
  deaths_avg : Option ℚ
  assists_avg : Option ℚ
  games_analyzed : ℕ
deriving DecidableEq, Repr

/-- Model `PlayerProfile` from models.py (the fields the claims exercise;
`scraped_at` and `data_quality_score` have defaults and are not set on the
reconstruction path, so they are omitted). -/
structure PlayerProfile where
  nickname : String
  game : GameTitle
  country : CountryCode
  server : String
  rank : String
  stats : PlayerStats
  top_champions : List Champion
  profile_url : String
deriving DecidableEq, Repr

/-- Validation of the `nickname` field on `PlayerProfile` construction.
pydantic first enforces the `Field` constraints `min_length=1`,
`max_length=100`, and only then runs the `validate_unicode_support`
validator (empty check, then `v.encode('utf-8').decode('utf-8')`, then
`return v`). -/
def validate_nickname (v : String) : Except String String :=
  if v.length < 1 then .error "ensure this value has at least 1 characters"
  else if 100 < v.length then .error "ensure this value has at most 100 characters"
  else
    if v = "" then .error "Nickname no puede estar vacio"
    else
      match utf8_decode (utf8_encode_str v) with
      | some _ => .ok v
      | none => .error "Nickname contiene caracteres invalidos"

/-- Validation of the `top_champions` field on `PlayerProfile`
construction.  pydantic first enforces the `Field` constraints
`min_items=1`, `max_items=3`, and only then runs the
`validate_top_champions` validator (which truncates to the first 3 when
more than 3 were supplied). -/
def validate_top_champions (v : List Champion) : Except String (List Champion) :=
  if v.length < 1 then .error "ensure this value has at least 1 items"
  else if 3 < v.length then .error "ensure this value has at most 3 items"
  else .ok (if 3 < v.length then v.take 3 else v)

/-- The `PlayerProfile(...)` construction: the validated fields go through
their validators; the first validation error rejects the construction
(`ValidationError`). -/
def mkPlayerProfile (nickname : String) (game : GameTitle) (country : CountryCode)
    (server rank : String) (stats : PlayerStats) (tops : List Champion)
    (profile_url : String) : Except String PlayerProfile :=
  match validate_nickname nickname, validate_top_champions tops with
  | .ok nn, .ok tc => .ok ⟨nn, game, country, server, rank, stats, tc, profile_url⟩
  | .error e, _ => .error e
  | .ok _, .error e => .error e

/-! ## Serialization round trip (pipeline.py)

`run_scraping_to_bronze` serializes a profile with
`profile.model_dump(mode='json')` into the raw record dictionary;
`sync_to_airtable` later reconstructs a `PlayerProfile` from the stored
record with `PlayerProfile(nickname=player_data['nickname'], ...)`,
re-running all validators.  `model_dump` passes the `nickname` string
through unchanged, which `WireRecord` mirrors field by field. -/

/-- The wire/record dictionary form of a profile. -/
structure WireRecord where
  nickname : String
  game : GameTitle
  country : CountryCode
  server : String
  rank : String
  stats : PlayerStats
  top_champions : List Champion
  profile_url : String
deriving DecidableEq, Repr

/-- Serialization (`model_dump`): every field is passed through. -/
def profile_to_record (p : PlayerProfile) : WireRecord :=
  ⟨p.nickname, p.game, p.country, p.server, p.rank, p.stats, p.top_champions,
   p.profile_url⟩

/-- Deserialization as done in `sync_to_airtable`: a new `PlayerProfile`
is constructed from the record's fields (`rank=player_data['rank'] or
"Unknown"` replaces an empty rank). -/
def record_to_profile (r : WireRecord) : Except String PlayerProfile :=
  mkPlayerProfile r.nickname r.game r.country r.server
    (if r.rank = "" then "Unknown" else r.rank) r.stats r.top_champions
    r.profile_url

/-! ## skill_vector_embeddings.py -/

/-- Function `clamp(value, min_value, max_value)`; the source's defaults are
`min_value=0.0`, `max_value=1.0` and every call site uses them. -/
def clamp (value min_value max_value : ℚ) : ℚ :=
  max min_value (min max_value value)

/-- Function `_get_stat(stats, key, default=0.0)`: `raw = stats.get(key, default)`,
then `float(raw) if raw is not None else float(default)`, any exception
giving `default`. -/
def get_stat (stats : List (String × PyVal)) (key : String) (default : ℚ) : ℚ :=
  let raw := (dictGet stats key).getD (.pnum default)
  match raw with
  | .pnone => default
  | v => (pyFloat v).getD default

/-- Python `round(x, 6)`: round half to even at six decimal places.  The
integer rounding step. -/
def round_half_even (x : ℚ) : ℤ :=
  if x - ⌊x⌋ < 1 / 2 then ⌊x⌋
  else if 1 / 2 < x - ⌊x⌋ then ⌊x⌋ + 1
  else if ⌊x⌋ % 2 = 0 then ⌊x⌋ else ⌊x⌋ + 1

/-- Python `round(x, 6)` on a number modelled by `ℚ`. -/
def py_round6 (x : ℚ) : ℚ :=
  (round_half_even (x * 1000000) : ℚ) / 1000000

/-- The `aggressiveness` block of `compute_skill_vector`: the explicit
field is used if present and not `None` (reaching the uncaught
`float(aggressiveness)` at the normalization line), otherwise the
`kills_avg / (deaths_avg + 1.0)` heuristic (0 when `kills_avg` is not
positive). -/
def aggressiveness_value (stats : List (String × PyVal)) : Except String ℚ :=
  match dictGet stats "aggressiveness" with
  | none | some .pnone =>
    let kills_avg := get_stat stats "kills_avg" 0
    let deaths_avg := get_stat stats "deaths_avg" 0
    .ok (if 0 < kills_avg then kills_avg / (deaths_avg + 1) else 0)
  | some v =>
    match pyFloat v with
    | some x => .ok x
    | none => .error "ValueError: could not convert value to float"

/-- The `versatility` block of `compute_skill_vector`: explicit field if
present (reaching the uncaught `float(versatility)`), otherwise
`len(top_champions) / 3.0` (0 when the list is empty). -/
def versatility_value (stats : List (String × PyVal))
    (top_champions : List (List (String × PyVal))) : Except String ℚ :=
  match dictGet stats "versatility" with
  | none | some .pnone =>
    let diversity := top_champions.length
    .ok (if 0 < diversity then (diversity : ℚ) / 3 else 0)
  | some v =>
    match pyFloat v with
    | some x => .ok x
    | none => .error "ValueError: could not convert value to float"

/-- Function `compute_skill_vector(stats, top_champions)`.  The four stats fetched
through `_get_stat` (`win_rate`, `kda`, `kills_avg`, `deaths_avg`) default
to 0.0 on any failure, but an explicitly present non-`None`
`aggressiveness` or `versatility` entry reaches a bare `float(...)` call
whose exception is not caught: that path is the `.error` result.
`top_champions` is the list of champion dictionaries (only its length is
used; `isinstance(top_champions, list)` always holds for it). -/
def compute_skill_vector (stats : List (String × PyVal))
    (top_champions : List (List (String × PyVal))) : Except String (List ℚ) :=
  let win_rate := get_stat stats "win_rate" 0
  let kda := get_stat stats "kda" 0
  match aggressiveness_value stats, versatility_value stats top_champions with
  | .ok aggressiveness, .ok versatility =>
    .ok [py_round6 (clamp (kda / 10) 0 1),
         py_round6 (clamp (win_rate / 100) 0 1),
         py_round6 (clamp (aggressiveness / 5) 0 1),
         py_round6 (clamp versatility 0 1)]
  | .error e, _ => .error e
  | .ok _, .error e => .error e

/-- True when the explicitly stored value under `key` (if any, and not
`None`) converts with `float` without raising; the hypothesis under which
`compute_skill_vector` cannot raise. -/
def explicit_field_floatable (stats : List (String × PyVal)) (key : String) : Bool :=
  match dictGet stats key with
  | none => true
  | some .pnone => true
  | some v => (pyFloat v).isSome

/-- True when every stored stats value is numeric. -/
def numeric_stats (stats : List (String × PyVal)) : Bool :=
  stats.all (fun kv => match kv.2 with | .pnum _ => true | _ => false)

/-! ## pipeline.py -/

/-- A silver-tier row as returned by the record store
(`get_players_by_country`): id, nickname, and the numeric `stats` JSON
object. -/
structure SilverRow where
  id : ℕ
  nickname : String
  stats : List (String × ℚ)
deriving DecidableEq, Repr

/-- Expression `player['stats'].get('win_rate', 0)` on a silver row. -/
def row_win_rate (p : SilverRow) : ℚ :=
  ((p.stats.find? (fun kv => kv.1 == "win_rate")).map (·.2)).getD 0

/-- The promotion rule of `promote_best_to_gold`:
`win_rate >= min_win_rate`. -/
def promote_decision (min_win_rate : ℚ) (p : SilverRow) : Bool :=
  min_win_rate ≤ row_win_rate p

/-- Function `promote_best_to_gold(min_win_rate=55.0)`: every fetched row whose
win rate meets the threshold is promoted; a failing `promote_to_gold`
store call (modelled by `promoteOk`) is caught and not counted.  Returns
the promoted count. -/
def promote_best_to_gold (players : List SilverRow) (min_win_rate : ℚ)
    (promoteOk : SilverRow → Bool) : ℕ :=
  (players.filter (fun p => promote_decision min_win_rate p && promoteOk p)).length

/-- The chunking loop `for i in range(0, len(players), batch_size)` with
`batch = players[i:i+batch_size]`, fuel-indexed so that it computes by
reduction (fuel `≥` the list length suffices; `list_chunks` is only ever
used with the positive batch size 10 — Python `range` would raise on
step 0). -/
def list_chunks_aux {α : Type} : ℕ → List α → ℕ → List (List α)
  | _, [], _ => []
  | 0, _ :: _, _ => []
  | fuel + 1, a :: as, k => (a :: as).take k :: list_chunks_aux fuel ((a :: as).drop k) k

/-- The chunks `players[0:k], players[k:2k], ...` of the export loop. -/
def list_chunks {α : Type} (l : List α) (k : ℕ) : List (List α) :=
  list_chunks_aux l.length l k

/-- The send-batch calls of `sync_to_airtable`: each chunk of 10 is converted
row by row (`conv none` = the `PlayerProfile(...)` reconstruction raised
and the row was skipped), and `send_players_batch` is called only when the
converted chunk is nonempty.  Returns the sizes of the batches actually
sent, in call order. -/
def sync_batch_sizes {α β : Type} (players : List α) (conv : α → Option β) : List ℕ :=
  (list_chunks players 10).filterMap (fun b =>
    let profiles := b.filterMap conv
    if profiles.isEmpty then none else some profiles.length)

/-- Stage counts of one `run_full_pipeline` run.  `airtable = none` means
the export stage was not requested (`sync_to_airtable=False`). -/
structure PipelineCounts where
  bronze : ℕ
  silver : ℕ
  gold : ℕ
  airtable : Option ℕ
deriving DecidableEq, Repr

/-- Function `run_scraping_to_bronze`: each scraped profile is inserted; a failing
insert (`insertOk p = false`) is caught, logged and skipped.  Returns the
inserted count. -/
def run_scraping_to_bronze {α : Type} (profiles : List α) (insertOk : α → Bool) : ℕ :=
  (profiles.filter insertOk).length

/-- Function `run_full_pipeline(source, identifiers, sync_to_airtable)`: the four
stages run in a straight line — scraping+insertion, silver verification,
gold promotion (threshold 55.0), Airtable sync (only if the flag is set).
There is no branch on the collected count: the later stages query the
record store themselves (modelled by the `dbVerify`/`dbPromote`/`dbSync`
query results) and run whether or not `profiles` is empty. -/
def run_full_pipeline {α : Type} (profiles : List α) (insertOk : α → Bool)
    (dbVerify dbPromote dbSync : List SilverRow) (promoteOk : SilverRow → Bool)
    (sync_to_airtable : Bool) : PipelineCounts :=
  let bronze := run_scraping_to_bronze profiles insertOk
  let silver := dbVerify.length
  let gold := promote_best_to_gold dbPromote 55 promoteOk
  let airtable :=
    if sync_to_airtable then some ((sync_batch_sizes dbSync some).sum) else none
  ⟨bronze, silver, gold, airtable⟩

/-! ## bronze_ingestion.py and scrapers.py: per-item fault isolation -/

/-- The outcome of one per-item extraction as seen at the loop boundary:
the adapter produced a value, raised (all exceptions are caught at the
item boundary), or returned a falsy/empty result. -/
inductive ItemOutcome (π : Type) where
  | ok (p : π)
  | fail
  | empty
deriving DecidableEq, Repr

/-- Method `BaseScraper.scrape_players`: iterate the targets in order; an
exception from `scrape_player` is caught and the loop continues; a falsy
result is skipped.  Returns the successful profiles in target order. -/
def scrape_players {π : Type} : List (ItemOutcome π) → List π
  | [] => []
  | .ok p :: rest => p :: scrape_players rest
  | .fail :: rest => scrape_players rest
  | .empty :: rest => scrape_players rest

/-- The row loop of `BronzeIngestionScraper.scrape_liquipedia_ranking`: a
row whose processing raises increments `error_count` and the loop
continues; a row yielding no data (`if player_data:` falsy, or too few
cells) is skipped without touching the counter.  Returns the extracted
records in row order together with the error count. -/
def scrape_liquipedia_rows {ρ : Type} : List (ItemOutcome ρ) → List ρ × ℕ
  | [] => ([], 0)
  | .ok d :: rest =>
    let r := scrape_liquipedia_rows rest
    (d :: r.1, r.2)
  | .fail :: rest =>
    let r := scrape_liquipedia_rows rest
    (r.1, r.2 + 1)
  | .empty :: rest => scrape_liquipedia_rows rest

/-- Function `insert_to_bronze`: per-record insertion with isolate-and-continue;
returns the inserted count. -/
def insert_to_bronze {α : Type} (players_data : List α) (insertOk : α → Bool) : ℕ :=
  (players_data.filter insertOk).length

/-- Method `BronzeIngestionScraper.run_ingestion` after scraping: `if not
players_data:` logs a warning and returns — the insertion stage is never
invoked (`none`); otherwise it inserts (`some` count). -/
def run_ingestion_inserts {α : Type} (players_data : List α)
    (insertOk : α → Bool) : Option ℕ :=
  if players_data.isEmpty then none
  else some (insert_to_bronze players_data insertOk)

/-! ## Theorems -/

/-- C1: `detect_country` is a total function into `CountryCode` (it cannot
raise, as the Lean type already records), and the flag signal has priority:
whenever `profile_text` carries a flag glyph recognised by the flag table
*and* a (possibly contradicting) country name recognised by the name
table, the result is the flag's country — the name match is never
consulted. -/
theorem C1_flag_priority (server url additional_text : Option String)
    (p : String) (c c' : CountryCode)
    (hflag : detect_country_from_flag p = some c)
    (_hname : detect_country_from_name p = some c') :
    detect_country (some p) server url additional_text = c := by
  have hp : ¬ p = "" := by
    intro hp
    rw [hp, show detect_country_from_flag "" = none from rfl] at hflag
    exact Option.noConfusion hflag
  simp [detect_country, hp, hflag]

/-- Witness for C1: the text "🇰🇷 india" carries the Korean flag and the
contradicting name "india"; the result is the flag's country KOREA. -/
theorem C1_flag_priority_witness :
    detect_country_from_flag "🇰🇷 india" = some CountryCode.KOREA ∧
    detect_country_from_name "🇰🇷 india" = some CountryCode.INDIA ∧
    detect_country (some "🇰🇷 india") none none none = CountryCode.KOREA :=
  ⟨rfl, rfl,
   C1_flag_priority none none none "🇰🇷 india" CountryCode.KOREA
     CountryCode.INDIA rfl rfl⟩

/-- C10: the server table maps "asia" to the UNKNOWN member, which is
truthy (a nonempty-string enum value), so the server step returns UNKNOWN
and suppresses the URL step for every url — even one (second conjunct)
that on its own resolves to a country. -/
theorem C10_asia_server_suppresses_url (url : String) :
    detect_country none (some "asia") (some url) none = CountryCode.UNKNOWN ∧
    detect_country none none (some "https://kr.op.gg/summoners") none =
      CountryCode.KOREA :=
  ⟨rfl, rfl⟩

/-- C7: per-item fault isolation in the collectors.  `scrape_players`
returns exactly the successful extractions in target order for every
outcome sequence; on the 5-target run whose third item raises, it returns
the other 4 profiles in order, and the bronze row loop additionally
reports an error count of 1 — the loop reaches item 5 and never
propagates the exception (the functions are total). -/
theorem C7_per_item_fault_isolation :
    (∀ (π : Type) (outcomes : List (ItemOutcome π)),
      scrape_players outcomes =
        outcomes.filterMap
          (fun o => match o with | .ok p => some p | .fail => none | .empty => none)) ∧
    (∀ (π : Type) (p1 p2 p4 p5 : π),
      scrape_players [.ok p1, .ok p2, .fail, .ok p4, .ok p5] = [p1, p2, p4, p5]) ∧
    (∀ (ρ : Type) (d1 d2 d4 d5 : ρ),
      scrape_liquipedia_rows [.ok d1, .ok d2, .fail, .ok d4, .ok d5] =
        ([d1, d2, d4, d5], 1)) := by
  refine ⟨?_, ?_, ?_⟩
  · intro π outcomes
    induction outcomes with
    | nil => rfl
    | cons o rest ih => cases o <;> simp [scrape_players, List.filterMap_cons, ih]
  · intro π p1 p2 p4 p5; rfl
  · intro ρ d1 d2 d4 d5; rfl

/-- C4: the promotion rule of `promote_best_to_gold` is exactly
`win_rate >= threshold`, and at the default threshold 55.0 the boundary is
inclusive: a row with `win_rate=54.9` is not promoted, one with
`win_rate=55.0` is. -/
theorem C4_promotion_threshold_boundary :
    (∀ (players : List SilverRow) (p : SilverRow),
      p ∈ players.filter (promote_decision 55) ↔
        p ∈ players ∧ 55 ≤ row_win_rate p) ∧
    (∀ (players : List SilverRow) (promoteOk : SilverRow → Bool),
      promote_best_to_gold players 55 promoteOk =
        ((players.filter promoteOk).filter (promote_decision 55)).length) ∧
    promote_decision 55 ⟨1, "boundary_low", [("win_rate", (54.9 : ℚ))]⟩ = false ∧
    promote_decision 55 ⟨2, "boundary_high", [("win_rate", (55 : ℚ))]⟩ = true := by
  refine ⟨?_, ?_, by with_unfolding_all rfl, by with_unfolding_all rfl⟩
  · intro players p
    simp [List.mem_filter, promote_decision]
  · intro players promoteOk
    unfold promote_best_to_gold
    rw [List.filter_filter]

/-- C2: the code rejects, never truncates.  `Field(max_items=3)` is
enforced before the `validate_top_champions` validator can run, so a
4-champion list makes both the field validation and the whole
`PlayerProfile(...)` construction fail with a ValidationError; the
validator's truncation branch is unreachable. -/
theorem C2_four_champions_rejected :
    validate_top_champions (List.replicate 4 ⟨"Azir", 10, 50⟩) =
      Except.error "ensure this value has at most 3 items" ∧
    mkPlayerProfile "Faker" GameTitle.LEAGUE_OF_LEGENDS CountryCode.KOREA "KR"
        "Challenger" ⟨55, 4, none, none, none, 100⟩
        (List.replicate 4 ⟨"Azir", 10, 50⟩) "https://kr.op.gg/faker" =
      Except.error "ensure this value has at most 3 items" :=
  ⟨rfl, rfl⟩

/-- Counterexample for C8: a run of `run_full_pipeline` whose collecting
stage yields zero profiles still performs work in every later stage — here
the store holds one silver row with win rate 60, and the run reports
1 verified row, 1 promotion and 1 exported record.  There is no
short-circuit to Done. -/
theorem C8_counterexample :
    run_full_pipeline ([] : List Unit) (fun _ => true)
        [⟨1, "kr1", [("win_rate", (60 : ℚ))]⟩]
        [⟨1, "kr1", [("win_rate", (60 : ℚ))]⟩]
        [⟨1, "kr1", [("win_rate", (60 : ℚ))]⟩]
        (fun _ => true) true =
      ⟨0, 1, 1, some 1⟩ :=
  rfl

/-- C8 (amended): zero collected profiles does not short-circuit
`run_full_pipeline` — verification, promotion and export still run,
querying the store independently of the collected batch; the zero-result
short-circuit with a warning exists only in
`BronzeIngestionScraper.run_ingestion`, which skips the Bronze insertion
stage when scraping returned no data. -/
theorem C8_no_shortcircuit_in_full_pipeline :
    (∀ (dbVerify dbPromote dbSync : List SilverRow)
        (promoteOk : SilverRow → Bool) (sync_flag : Bool),
      run_full_pipeline ([] : List Unit) (fun _ => true) dbVerify dbPromote
          dbSync promoteOk sync_flag =
        ⟨0, dbVerify.length, promote_best_to_gold dbPromote 55 promoteOk,
         if sync_flag then some ((sync_batch_sizes dbSync some).sum) else none⟩) ∧
    (∀ (α : Type) (insertOk : α → Bool),
      run_ingestion_inserts ([] : List α) insertOk = none) :=
  ⟨fun _ _ _ _ _ => rfl, fun _ _ => rfl⟩

/-- The chunking loop does not depend on the fuel once it covers the list
length (and the batch size is positive). -/
theorem list_chunks_aux_fuel {α : Type} :
    ∀ (fuel fuel' : ℕ) (l : List α) (k : ℕ), 1 ≤ k →
      l.length ≤ fuel → l.length ≤ fuel' →
      list_chunks_aux fuel l k = list_chunks_aux fuel' l k := by
  intro fuel
  induction fuel with
  | zero =>
    intro fuel' l k _hk h _h'
    have hl : l = [] := List.eq_nil_of_length_eq_zero (Nat.le_zero.mp h)
    subst hl
    cases fuel' <;> rfl
  | succ n ih =>
    intro fuel' l k hk h h'
    cases l with
    | nil => cases fuel' <;> rfl
    | cons a as =>
      cases fuel' with
      | zero => simp at h'
      | succ m =>
        simp only [list_chunks_aux]
        congr 1
        apply ih
        · exact hk
        · simp only [List.length_drop, List.length_cons] at *
          omega
        · simp only [List.length_drop, List.length_cons] at *
          omega

/-- One unfolding of the chunking loop on a nonempty list. -/
theorem list_chunks_cons {α : Type} (l : List α) (k : ℕ) (hl : l ≠ [])
    (hk : 1 ≤ k) :
    list_chunks l k = l.take k :: list_chunks (l.drop k) k := by
  obtain ⟨a, as, rfl⟩ := List.exists_cons_of_ne_nil hl
  show list_chunks_aux (as.length + 1) (a :: as) k = _
  simp only [list_chunks_aux]
  congr 1
  apply list_chunks_aux_fuel _ _ _ _ hk
  · simp only [List.length_drop, List.length_cons]
    omega
  · exact le_rfl

/-- C6: export chunking with `batch_size = 10` partitions the record list
into consecutive chunks — their concatenation is the original list — and
23 records give exactly the chunk lengths 10, 10, 3.  With every record
converting successfully, `sync_to_airtable` therefore makes exactly 3
send-batch calls of sizes 10, 10, 3, in that order. -/
theorem C6_export_chunking {α : Type} (players : List α)
    (hlen : players.length = 23) :
    (list_chunks players 10).map List.length = [10, 10, 3] ∧
    (list_chunks players 10).flatten = players ∧
    sync_batch_sizes players some = [10, 10, 3] := by
  have h1 : players ≠ [] := by
    intro h; rw [h] at hlen; simp at hlen
  have e1 := list_chunks_cons players 10 h1 (by omega)
  have hd1 : (players.drop 10).length = 13 := by
    simp [List.length_drop, hlen]
  have h2 : players.drop 10 ≠ [] := by
    intro h; rw [h] at hd1; simp at hd1
  have e2 := list_chunks_cons (players.drop 10) 10 h2 (by omega)
  have hd2 : ((players.drop 10).drop 10).length = 3 := by
    simp [List.length_drop, hlen]
  have h3 : (players.drop 10).drop 10 ≠ [] := by
    intro h; rw [h] at hd2; simp at hd2
  have e3 := list_chunks_cons ((players.drop 10).drop 10) 10 h3 (by omega)
  have hd3 : (((players.drop 10).drop 10).drop 10).length = 0 := by
    simp [List.length_drop, hlen]
  have e4 : ((players.drop 10).drop 10).drop 10 = [] :=
    List.eq_nil_of_length_eq_zero hd3
  rw [e4] at e3
  have echunks : list_chunks players 10 =
      [players.take 10, (players.drop 10).take 10,
       ((players.drop 10).drop 10).take 10] := by
    rw [e1, e2, e3]; rfl
  have ht1 : (players.take 10).length = 10 := by
    simp only [List.length_take, hlen]; decide
  have ht2 : ((players.drop 10).take 10).length = 10 := by
    simp only [List.length_take, hd1]; decide
  have ht3 : (((players.drop 10).drop 10).take 10).length = 3 := by
    simp only [List.length_take, hd2]; decide
  refine ⟨?_, ?_, ?_⟩
  · rw [echunks]
    simp only [List.map_cons, List.map_nil, ht1, ht2, ht3]
  · rw [echunks]
    have t3 : ((players.drop 10).drop 10).take 10 = (players.drop 10).drop 10 :=
      List.take_of_length_le (by omega)
    simp only [List.flatten, List.append_nil, t3]
    rw [List.take_append_drop, List.take_append_drop]
  · unfold sync_batch_sizes
    rw [echunks]
    have he1 : (players.take 10).isEmpty = false := by
      have hne : ¬ ((players.take 10).isEmpty = true) := by
        rw [List.isEmpty_iff_length_eq_zero, ht1]; omega
      exact Bool.eq_false_iff.mpr hne
    have he2 : ((players.drop 10).take 10).isEmpty = false := by
      have hne : ¬ (((players.drop 10).take 10).isEmpty = true) := by
        rw [List.isEmpty_iff_length_eq_zero, ht2]; omega
      exact Bool.eq_false_iff.mpr hne
    have he3 : (((players.drop 10).drop 10).take 10).isEmpty = false := by
      have hne : ¬ ((((players.drop 10).drop 10).take 10).isEmpty = true) := by
        rw [List.isEmpty_iff_length_eq_zero, ht3]; omega
      exact Bool.eq_false_iff.mpr hne
    simp [List.filterMap_cons, List.filterMap_some, he1, he2, he3, hlen]

/-- Witness for C6 at the concrete 23-element list `List.range 23`. -/
theorem C6_export_chunking_witness :
    (List.range 23).length = 23 ∧
    ((list_chunks (List.range 23) 10).map List.length = [10, 10, 3] ∧
     (list_chunks (List.range 23) 10).flatten = List.range 23 ∧
     sync_batch_sizes (List.range 23) some = [10, 10, 3]) :=
  ⟨rfl, C6_export_chunking (List.range 23) rfl⟩

/-- When the explicitly stored `aggressiveness` (if any) is
float-convertible, the aggressiveness block cannot raise. -/
theorem aggressiveness_value_ok (stats : List (String × PyVal))
    (h : explicit_field_floatable stats "aggressiveness" = true) :
    ∃ x, aggressiveness_value stats = .ok x := by
  unfold explicit_field_floatable at h
  unfold aggressiveness_value
  rcases hag : dictGet stats "aggressiveness" with _ | v
  · exact ⟨_, rfl⟩
  · rw [hag] at h
    cases v with
    | pnum x => exact ⟨x, rfl⟩
    | pstr s =>
      have h' : (pyFloat (PyVal.pstr s)).isSome = true := h
      obtain ⟨x, hx⟩ := Option.isSome_iff_exists.mp h'
      refine ⟨x, ?_⟩
      show (match pyFloat (PyVal.pstr s) with
            | some x => Except.ok x
            | none => Except.error "ValueError: could not convert value to float") =
          Except.ok x
      rw [hx]
    | pnone => exact ⟨_, rfl⟩

/-- When the explicitly stored `versatility` (if any) is
float-convertible, the versatility block cannot raise. -/
theorem versatility_value_ok (stats : List (String × PyVal))
    (tc : List (List (String × PyVal)))
    (h : explicit_field_floatable stats "versatility" = true) :
    ∃ x, versatility_value stats tc = .ok x := by
  unfold explicit_field_floatable at h
  unfold versatility_value
  rcases hvg : dictGet stats "versatility" with _ | v
  · exact ⟨_, rfl⟩
  · rw [hvg] at h
    cases v with
    | pnum x => exact ⟨x, rfl⟩
    | pstr s =>
      have h' : (pyFloat (PyVal.pstr s)).isSome = true := h
      obtain ⟨x, hx⟩ := Option.isSome_iff_exists.mp h'
      refine ⟨x, ?_⟩
      show (match pyFloat (PyVal.pstr s) with
            | some x => Except.ok x
            | none => Except.error "ValueError: could not convert value to float") =
          Except.ok x
      rw [hx]
    | pnone => exact ⟨_, rfl⟩

/-- Counterexample for C3: a stats map whose `aggressiveness` entry holds
the non-numeric string "high" makes `compute_skill_vector` raise — the
explicit-field path calls `float("high")` outside any try/except, so the
claim that the function never raises on malformed entries is false. -/
theorem C3_counterexample_explicit_field_raises :
    compute_skill_vector [("aggressiveness", PyVal.pstr "high")] [] =
      Except.error "ValueError: could not convert value to float" :=
  rfl

/-- C3 (amended): `compute_skill_vector` cannot raise as long as any
*explicitly present, non-None* `aggressiveness` or `versatility` entry is
float-convertible; the four stats read through `_get_stat` (`win_rate`,
`kda`, `kills_avg`, `deaths_avg`) are protected — missing or malformed
values are treated as 0.0 (closing conjuncts) — but the two explicit
fields are not. -/
theorem C3_malformed_inputs_guarded (stats : List (String × PyVal))
    (tc : List (List (String × PyVal)))
    (ha : explicit_field_floatable stats "aggressiveness" = true)
    (hv : explicit_field_floatable stats "versatility" = true) :
    (∃ l, compute_skill_vector stats tc = Except.ok l) ∧
    get_stat [("win_rate", PyVal.pstr "abc")] "win_rate" 0 = 0 ∧
    get_stat [("kda", PyVal.pnone)] "kda" 0 = 0 ∧
    get_stat [] "kills_avg" 0 = 0 := by
  refine ⟨?_, rfl, rfl, rfl⟩
  obtain ⟨x, hx⟩ := aggressiveness_value_ok stats ha
  obtain ⟨y, hy⟩ := versatility_value_ok stats tc hv
  exact ⟨_, by unfold compute_skill_vector; rw [hx, hy]⟩

/-- Witness for C3 (amended) at a stats map whose `win_rate` is a
malformed string and whose `kda` is None: the vector is still produced. -/
theorem C3_malformed_inputs_guarded_witness :
    explicit_field_floatable [("win_rate", PyVal.pstr "oops"), ("kda", PyVal.pnone)]
        "aggressiveness" = true ∧
    explicit_field_floatable [("win_rate", PyVal.pstr "oops"), ("kda", PyVal.pnone)]
        "versatility" = true ∧
    ((∃ l, compute_skill_vector
        [("win_rate", PyVal.pstr "oops"), ("kda", PyVal.pnone)] [] = Except.ok l) ∧
     get_stat [("win_rate", PyVal.pstr "abc")] "win_rate" 0 = 0 ∧
     get_stat [("kda", PyVal.pnone)] "kda" 0 = 0 ∧
     get_stat [] "kills_avg" 0 = 0) :=
  ⟨rfl, rfl,
   C3_malformed_inputs_guarded
     [("win_rate", PyVal.pstr "oops"), ("kda", PyVal.pnone)] [] rfl rfl⟩

/-- Clamping into `[0,1]` really lands in `[0,1]`. -/
theorem clamp01_bounds (x : ℚ) : 0 ≤ clamp x 0 1 ∧ clamp x 0 1 ≤ 1 := by
  unfold clamp
  exact ⟨le_max_left 0 _, max_le (by norm_num) (min_le_left _ _)⟩

/-- Round-half-even of a value in `[0, 10^6]` stays in `[0, 10^6]`. -/
theorem round_half_even_bounds (x : ℚ) (h0 : 0 ≤ x) (h1 : x ≤ 1000000) :
    0 ≤ round_half_even x ∧ round_half_even x ≤ 1000000 := by
  unfold round_half_even
  have hf0 : 0 ≤ ⌊x⌋ := Int.floor_nonneg.mpr h0
  have hfx : (⌊x⌋ : ℚ) ≤ x := Int.floor_le x
  have hfle : ⌊x⌋ ≤ 1000000 := by
    have hx : (⌊x⌋ : ℚ) ≤ ((1000000 : ℤ) : ℚ) := by push_cast; linarith
    exact_mod_cast hx
  have hsucc : ¬ (x - ⌊x⌋ < 1 / 2) → ⌊x⌋ + 1 ≤ 1000000 := by
    intro hge
    have h2 : (1 : ℚ) / 2 ≤ x - ⌊x⌋ := le_of_not_lt hge
    have hx : (⌊x⌋ : ℚ) < ((1000000 : ℤ) : ℚ) := by push_cast; linarith
    have : ⌊x⌋ < 1000000 := by exact_mod_cast hx
    omega
  split_ifs with hlt hgt heven
  · exact ⟨hf0, hfle⟩
  · exact ⟨by omega, hsucc hlt⟩
  · exact ⟨hf0, hfle⟩
  · exact ⟨by omega, hsucc hlt⟩

/-- Python `round(x, 6)` keeps `[0,1]` values in `[0,1]`. -/
theorem py_round6_bounds (x : ℚ) (h0 : 0 ≤ x) (h1 : x ≤ 1) :
    0 ≤ py_round6 x ∧ py_round6 x ≤ 1 := by
  unfold py_round6
  have hb := round_half_even_bounds (x * 1000000) (by positivity)
    (by nlinarith)
  constructor
  · apply div_nonneg _ (by norm_num)
    exact_mod_cast hb.1
  · rw [div_le_one (by norm_num)]
    exact_mod_cast hb.2

/-- Every component `compute_skill_vector` emits is a rounded clamp into
`[0,1]`. -/
theorem component_bounds (x : ℚ) :
    0 ≤ py_round6 (clamp x 0 1) ∧ py_round6 (clamp x 0 1) ≤ 1 :=
  py_round6_bounds _ (clamp01_bounds x).1 (clamp01_bounds x).2

/-- On an all-numeric stats map every stored value is a number. -/
theorem numeric_stats_lookup (stats : List (String × PyVal))
    (hnum : numeric_stats stats = true) (k : String) (v : PyVal)
    (h : dictGet stats k = some v) : ∃ x, v = PyVal.pnum x := by
  unfold dictGet at h
  rcases hf : stats.find? (fun kv => kv.1 == k) with _ | kv
  · rw [hf] at h; exact Option.noConfusion h
  · rw [hf] at h
    have hv : kv.2 = v := Option.some.inj h
    have hm : kv ∈ stats := List.mem_of_find?_eq_some hf
    have := (List.all_eq_true.mp hnum) kv hm
    cases hkv : kv.2 with
    | pnum x => exact ⟨x, by rw [← hv, hkv]⟩
    | pstr s => rw [hkv] at this; exact Bool.noConfusion this
    | pnone => rw [hkv] at this; exact Bool.noConfusion this

/-- C5: on every numeric stats map (whatever the champion list), all four
components of the returned vector lie in `[0,1]`; in particular `kda=999`
clamps to `kda_norm = 1.0`, and an empty `top_champions` list with no
explicit `versatility` field gives `versatility_norm = 0.0` (the final
conjunct exhibits the full vector `[1, 0, 0, 0]`). -/
theorem C5_components_in_unit_interval :
    (∀ (stats : List (String × PyVal)) (tc : List (List (String × PyVal))),
      numeric_stats stats = true →
      ∃ l, compute_skill_vector stats tc = Except.ok l ∧
        ∀ x ∈ l, 0 ≤ x ∧ x ≤ 1) ∧
    compute_skill_vector [("kda", PyVal.pnum 999)] [] =
      Except.ok [1, 0, 0, 0] := by
  constructor
  · intro stats tc hnum
    have haggr : ∃ x, aggressiveness_value stats = .ok x := by
      apply aggressiveness_value_ok
      unfold explicit_field_floatable
      rcases hag : dictGet stats "aggressiveness" with _ | v
      · rfl
      · obtain ⟨x, hx⟩ := numeric_stats_lookup stats hnum _ v hag
        rw [hx]
        rfl
    have hvers : ∃ x, versatility_value stats tc = .ok x := by
      apply versatility_value_ok
      unfold explicit_field_floatable
      rcases hvg : dictGet stats "versatility" with _ | v
      · rfl
      · obtain ⟨x, hx⟩ := numeric_stats_lookup stats hnum _ v hvg
        rw [hx]
        rfl
    obtain ⟨a, ha⟩ := haggr
    obtain ⟨w, hw⟩ := hvers
    refine ⟨_, by unfold compute_skill_vector; rw [ha, hw], ?_⟩
    intro x hx
    simp only [List.mem_cons, List.not_mem_nil, or_false] at hx
    rcases hx with h | h | h | h <;> rw [h] <;> exact component_bounds _
  · with_unfolding_all rfl

/-- Witness for C5 at the all-numeric stats map with `kda = 999` and an
empty champion list. -/
theorem C5_components_in_unit_interval_witness :
    numeric_stats [("kda", PyVal.pnum 999)] = true ∧
    (∃ l, compute_skill_vector [("kda", PyVal.pnum 999)] [] = Except.ok l ∧
      ∀ x ∈ l, 0 ≤ x ∧ x ≤ 1) :=
  ⟨rfl, C5_components_in_unit_interval.1 [("kda", PyVal.pnum 999)] [] rfl⟩

/-- Every Lean character is a Unicode scalar value below `0x110000`. -/
theorem char_toNat_lt (c : Char) : c.toNat < 1114112 := by
  have h := c.valid
  simp only [UInt32.isValidChar, Nat.isValidChar] at h
  rcases h with h | ⟨_, h2⟩
  · exact Nat.lt_trans h (by omega)
  · exact h2

/-- Decoding consumes the encoding of one code point and continues. -/
theorem utf8_decode_aux_encode_cons (fuel n : ℕ) (hn : n < 1114112)
    (rest : List ℕ) :
    utf8_decode_aux (fuel + 1) (utf8_encode_char n ++ rest) =
      (utf8_decode_aux fuel rest).map (n :: ·) := by
  unfold utf8_encode_char
  by_cases h1 : n < 128
  · rw [if_pos h1]
    show utf8_decode_aux (fuel + 1) (n :: rest) = _
    simp only [utf8_decode_aux, if_pos h1]
  · rw [if_neg h1]
    by_cases h2 : n < 2048
    · rw [if_pos h2]
      show utf8_decode_aux (fuel + 1) ((192 + n / 64) :: (128 + n % 64) :: rest) = _
      have c1 : ¬ (192 + n / 64 < 128) := by omega
      have c2 : ¬ (192 + n / 64 < 192) := by omega
      have c3 : 192 + n / 64 < 224 := by omega
      have c4 : 128 ≤ 128 + n % 64 ∧ 128 + n % 64 < 192 := by omega
      have c5 : (192 + n / 64 - 192) * 64 + (128 + n % 64 - 128) = n := by omega
      simp only [utf8_decode_aux, if_neg c1, if_neg c2, if_pos c3, if_pos c4, c5]
    · rw [if_neg h2]
      by_cases h3 : n < 65536
      · rw [if_pos h3]
        show utf8_decode_aux (fuel + 1)
            ((224 + n / 4096) :: (128 + n / 64 % 64) :: (128 + n % 64) :: rest) = _
        have c1 : ¬ (224 + n / 4096 < 128) := by omega
        have c2 : ¬ (224 + n / 4096 < 192) := by omega
        have c3 : ¬ (224 + n / 4096 < 224) := by omega
        have c4 : 224 + n / 4096 < 240 := by omega
        have c5 : (128 ≤ 128 + n / 64 % 64 ∧ 128 + n / 64 % 64 < 192) ∧
            (128 ≤ 128 + n % 64 ∧ 128 + n % 64 < 192) := by omega
        have c6 : (224 + n / 4096 - 224) * 4096 + (128 + n / 64 % 64 - 128) * 64 +
            (128 + n % 64 - 128) = n := by omega
        simp only [utf8_decode_aux, if_neg c1, if_neg c2, if_neg c3, if_pos c4,
          if_pos c5, c6]
      · rw [if_neg h3]
        show utf8_decode_aux (fuel + 1)
            ((240 + n / 262144) :: (128 + n / 4096 % 64) :: (128 + n / 64 % 64) ::
              (128 + n % 64) :: rest) = _
        have c1 : ¬ (240 + n / 262144 < 128) := by omega
        have c2 : ¬ (240 + n / 262144 < 192) := by omega
        have c3 : ¬ (240 + n / 262144 < 224) := by omega
        have c4 : ¬ (240 + n / 262144 < 240) := by omega
        have c5 : 240 + n / 262144 < 248 := by omega
        have c6 : (128 ≤ 128 + n / 4096 % 64 ∧ 128 + n / 4096 % 64 < 192) ∧
            (128 ≤ 128 + n / 64 % 64 ∧ 128 + n / 64 % 64 < 192) ∧
            (128 ≤ 128 + n % 64 ∧ 128 + n % 64 < 192) := by omega
        have c7 : (240 + n / 262144 - 240) * 262144 + (128 + n / 4096 % 64 - 128) * 4096 +
            (128 + n / 64 % 64 - 128) * 64 + (128 + n % 64 - 128) = n := by omega
        simp only [utf8_decode_aux, if_neg c1, if_neg c2, if_neg c3, if_neg c4,
          if_pos c5, if_pos c6, c7]

/-- Decoding the concatenated encodings of a valid code-point list
recovers the list (given at least one unit of fuel per code point). -/
theorem utf8_decode_encode_list :
    ∀ (l : List ℕ), (∀ n ∈ l, n < 1114112) → ∀ fuel,
      utf8_decode_aux (l.length + fuel) ((l.map utf8_encode_char).flatten) =
        some l := by
  intro l
  induction l with
  | nil => intro _ fuel; simp [utf8_decode_aux]
  | cons n rest ih =>
    intro h fuel
    have hlen : (n :: rest).length + fuel = (rest.length + fuel) + 1 := by
      simp only [List.length_cons]; omega
    rw [hlen]
    show utf8_decode_aux ((rest.length + fuel) + 1)
        (utf8_encode_char n ++ (rest.map utf8_encode_char).flatten) = _
    rw [utf8_decode_aux_encode_cons _ _ (h n (by simp)) _]
    rw [ih (fun m hm => h m (by simp [hm])) fuel]
    rfl

/-- Each code point encodes to at least one byte. -/
theorem utf8_encode_char_length_pos (n : ℕ) :
    1 ≤ (utf8_encode_char n).length := by
  unfold utf8_encode_char
  split_ifs <;> simp

/-- The byte length of an encoded list dominates its length. -/
theorem utf8_encode_length_le :
    ∀ (l : List ℕ), l.length ≤ ((l.map utf8_encode_char).flatten).length := by
  intro l
  induction l with
  | nil => simp
  | cons n rest ih =>
    show rest.length + 1 ≤ (utf8_encode_char n ++ (rest.map utf8_encode_char).flatten).length
    rw [List.length_append]
    have := utf8_encode_char_length_pos n
    omega

/-- The Python validator's `v.encode('utf-8').decode('utf-8')` never
raises on a (surrogate-free) string: decoding the encoding succeeds. -/
theorem utf8_roundtrip_str (s : String) :
    utf8_decode (utf8_encode_str s) = some (s.data.map Char.toNat) := by
  unfold utf8_decode utf8_encode_str
  have hmm : s.data.map (fun c => utf8_encode_char c.toNat) =
      (s.data.map Char.toNat).map utf8_encode_char := by
    rw [List.map_map]
    rfl
  rw [hmm]
  have hvalid : ∀ n ∈ s.data.map Char.toNat, n < 1114112 := by
    intro n hn
    obtain ⟨c, _, rfl⟩ := List.mem_map.mp hn
    exact char_toNat_lt c
  have hle := utf8_encode_length_le (s.data.map Char.toNat)
  have hsplit : (((s.data.map Char.toNat).map utf8_encode_char).flatten).length =
      (s.data.map Char.toNat).length +
        ((((s.data.map Char.toNat).map utf8_encode_char).flatten).length -
          (s.data.map Char.toNat).length) := by omega
  rw [hsplit]
  exact utf8_decode_encode_list (s.data.map Char.toNat) hvalid _

/-- A nonempty nickname of at most 100 characters passes the pydantic
field constraints and the `validate_unicode_support` validator, and is
returned unchanged. -/
theorem validate_nickname_ok (v : String) (h1 : v ≠ "") (h2 : v.length ≤ 100) :
    validate_nickname v = Except.ok v := by
  unfold validate_nickname
  have hlen : ¬ v.length < 1 := by
    have : v.data ≠ [] := by
      intro hd
      exact h1 (by cases v with | mk d => cases hd; rfl)
    have : 0 < v.data.length := List.length_pos.mpr this
    show ¬ v.data.length < 1
    omega
  rw [if_neg hlen, if_neg (by omega : ¬ 100 < v.length), if_neg h1,
    utf8_roundtrip_str]

/-- A champion list of length 1 to 3 passes the field constraints, and the
validator's truncation is the identity on it. -/
theorem validate_top_champions_ok (v : List Champion) (h1 : 1 ≤ v.length)
    (h2 : v.length ≤ 3) : validate_top_champions v = Except.ok v := by
  unfold validate_top_champions
  rw [if_neg (by omega : ¬ v.length < 1), if_neg (by omega : ¬ 3 < v.length),
    if_neg (by omega : ¬ 3 < v.length)]

/-- C9: serializing a valid profile to its wire/record dictionary and
reconstructing it as `sync_to_airtable` does yields a profile whose
`nickname` is exactly the original text, character for character —
including multi-script Unicode nicknames, since the UTF-8 encode/decode
in the validator succeeds and returns the original string. -/
theorem C9_nickname_roundtrip (p : PlayerProfile) (h1 : p.nickname ≠ "")
    (h2 : p.nickname.length ≤ 100) (h3 : 1 ≤ p.top_champions.length)
    (h4 : p.top_champions.length ≤ 3) :
    ∃ p', record_to_profile (profile_to_record p) = Except.ok p' ∧
      p'.nickname = p.nickname := by
  unfold record_to_profile profile_to_record mkPlayerProfile
  rw [validate_nickname_ok _ h1 h2, validate_top_champions_ok _ h3 h4]
  exact ⟨_, rfl, rfl⟩

/-- A profile with a Hangul nickname, used as the C9 witness input. -/
def faker_profile : PlayerProfile :=
  ⟨"페이커", .LEAGUE_OF_LEGENDS, .KOREA, "KR", "Challenger",
   ⟨55, 4, none, none, none, 100⟩, [⟨"Azir", 100, 55⟩], "https://kr.op.gg/faker"⟩

/-- Witness for C9 at a profile whose nickname is the Hangul "페이커". -/
theorem C9_nickname_roundtrip_witness :
    faker_profile.nickname ≠ "" ∧ faker_profile.nickname.length ≤ 100 ∧
    1 ≤ faker_profile.top_champions.length ∧
    faker_profile.top_champions.length ≤ 3 ∧
    ∃ p', record_to_profile (profile_to_record faker_profile) = Except.ok p' ∧
      p'.nickname = faker_profile.nickname :=
  ⟨by decide, by decide, by decide, by decide,
   C9_nickname_roundtrip faker_profile (by decide) (by decide) (by decide)
     (by decide)⟩

end GameRadar
